import Mathlib

/-!
A verification development for the DoroLang tree-walking interpreter
(`src/interpreter.py`, with AST shapes from `src/parser.py`).

The embedding mirrors the Python source:
* runtime values are the Python values the interpreter manipulates:
  `None`, `bool`, `int`, `float`, `str`.  Python floats are modelled as
  exact rationals (`PyQ`, a normalized fraction type); every claim under
  study only exercises float values and operations that are exact in
  binary64, so no rounding is modelled.  `str()` of a float is modelled by
  exact decimal printing, which agrees with Python on all
  decimal-representable values.
* Python `bool` is a subclass of `int`: `isinstance(True, (int, float))`
  holds, `True + 5 == 6`, `True == 1`.  The model keeps this faithfully
  (`isNum` is true on booleans, numeric coercions send them to 0/1).
* the interpreter's mutable state (variable map, function table, output
  buffer, `return_value`, `should_return`, and the host input stream) is
  threaded explicitly; raised `RuntimeError`s become `Except.error` and
  thread the state at the raise point, matching Python exception flow
  (no rollback of dict mutations).
* unbounded loops and recursion are handled with a fuel parameter; fuel
  exhaustion is a distinguished `none` outcome.
-/

namespace Doro

/-- Exact rationals standing in for Python floats: a numerator and a
positive denominator, kept in lowest terms by the operations. -/
structure PyQ where
  n : Int
  d : Nat
deriving DecidableEq, Repr

instance (k : Nat) : OfNat PyQ k := ⟨⟨k, 1⟩⟩

/-- Normalize a fraction with positive denominator to lowest terms. -/
def pyQNorm (n : Int) (d : Nat) : PyQ :=
  let g := Nat.gcd n.natAbs d
  if g = 0 then ⟨0, 1⟩ else ⟨n / (g : Int), d / g⟩

/-- Build a rational from an integer pair whose denominator may be negative. -/
def pyQOfInts (n m : Int) : PyQ :=
  if m < 0 then pyQNorm (-n) (-m).toNat else pyQNorm n m.toNat

def PyQ.add (a b : PyQ) : PyQ := pyQNorm (a.n * b.d + b.n * a.d) (a.d * b.d)

def PyQ.sub (a b : PyQ) : PyQ := pyQNorm (a.n * b.d - b.n * a.d) (a.d * b.d)

def PyQ.mul (a b : PyQ) : PyQ := pyQNorm (a.n * b.n) (a.d * b.d)

def PyQ.divQ (a b : PyQ) : PyQ := pyQOfInts (a.n * b.d) ((a.d : Int) * b.n)

def PyQ.neg (a : PyQ) : PyQ := ⟨-a.n, a.d⟩

/-- Numeric equality test (cross multiplication, so independent of form). -/
def PyQ.beqQ (a b : PyQ) : Bool := a.n * b.d == b.n * a.d

def PyQ.ltQ (a b : PyQ) : Bool := decide (a.n * b.d < b.n * a.d)

def PyQ.leQ (a b : PyQ) : Bool := decide (a.n * b.d ≤ b.n * a.d)

/-- Mathematical floor of the rational (Python `//`-style rounding). -/
def PyQ.floorQ (a : PyQ) : Int := Int.fdiv a.n a.d

def PyQ.isZero (a : PyQ) : Bool := a.n == 0

/-- Runtime values: the Python values `src/interpreter.py` manipulates. -/
inductive PyVal where
  | none : PyVal
  | bool (b : Bool) : PyVal
  | int (z : Int) : PyVal
  | float (q : PyQ) : PyVal
  | str (s : String) : PyVal
deriving DecidableEq, Repr

/-- `RuntimeError` from `src/interpreter.py`: carries only a message. -/
structure RErr where
  message : String
deriving DecidableEq, Repr

instance {ε α : Type} [DecidableEq ε] [DecidableEq α] : DecidableEq (Except ε α) := fun a b =>
  match a, b with
  | .ok x, .ok y =>
    if h : x = y then .isTrue (by rw [h]) else .isFalse (by intro he; cases he; exact h rfl)
  | .ok _, .error _ => .isFalse (by intro he; cases he)
  | .error _, .ok _ => .isFalse (by intro he; cases he)
  | .error x, .error y =>
    if h : x = y then .isTrue (by rw [h]) else .isFalse (by intro he; cases he; exact h rfl)

/-- A single-quote character, used when rendering the source's error messages. -/
def sq : String := "\x27"

/-- Wrap a string in single quotes, as the source's f-strings do. -/
def quoteS (s : String) : String := sq ++ s ++ sq

/-- Left-pad a digit string with zeros up to length `k`. -/
def padZeros (s : String) (k : Nat) : String :=
  String.mk (List.replicate (k - s.length) '0') ++ s

/-- Smallest exponent `k ≤ 39` with `d ∣ 10^k`, if any. -/
def decExp? (d : Nat) : Option Nat :=
  (List.range 40).find? (fun k => 10 ^ k % d == 0)

/-- Decimal rendering of a nonnegative fraction `num / den` in lowest terms,
Python-`str(float)` style: integers print with a trailing `.0`, decimal
fractions print exactly. -/
def floatStrNN (num den : Nat) : String :=
  match decExp? den with
  | some k =>
    let m : Nat := num * 10 ^ k / den
    if k == 0 then toString m ++ ".0"
    else toString (m / 10 ^ k) ++ "." ++ padZeros (toString (m % 10 ^ k)) k
  | Option.none => toString num ++ "/" ++ toString den

/-- `str()` of a float value (model: exact decimal printing of the rational). -/
def floatStr (q : PyQ) : String :=
  if q.n < 0 then "-" ++ floatStrNN (-q.n).toNat q.d else floatStrNN q.n.toNat q.d

/-- Python `str()` on runtime values, as used by `say` and by `+` concatenation. -/
def pyStr : PyVal → String
  | .none => "None"
  | .bool b => if b then "True" else "False"
  | .int z => toString z
  | .float q => floatStr q
  | .str s => s

/-- Python `type(v).__name__`, used in comparison error messages. -/
def pyTypeName : PyVal → String
  | .none => "NoneType"
  | .bool _ => "bool"
  | .int _ => "int"
  | .float _ => "float"
  | .str _ => "str"

/-- `Interpreter._is_truthy`: None/false/0/"" are falsy, everything else truthy. -/
def isTruthy : PyVal → Bool
  | .none => false
  | .bool b => b
  | .int z => !(z == 0)
  | .float q => !(q.isZero)
  | .str s => !(s == "")

/-- Digits of a char list as a natural number (caller checks they are digits). -/
def digitsNat (cs : List Char) : Nat :=
  cs.foldl (fun a c => a * 10 + (c.toNat - 48)) 0

/-- Parse a nonempty all-digit char list. -/
def digitsVal? (cs : List Char) : Option Nat :=
  if cs.isEmpty then Option.none
  else if cs.all Char.isDigit then some (digitsNat cs)
  else Option.none

/-- Strip leading and trailing whitespace (Python `int()`/`float()` allow it). -/
def trimWs (s : String) : List Char :=
  ((s.data.dropWhile Char.isWhitespace).reverse.dropWhile Char.isWhitespace).reverse

/-- Python `int(s)`: optional sign, then digits. -/
def pyInt? (s : String) : Option Int :=
  match trimWs s with
  | '+' :: cs => (digitsVal? cs).map Int.ofNat
  | '-' :: cs => (digitsVal? cs).map (fun n => -(n : Int))
  | cs => (digitsVal? cs).map Int.ofNat

/-- Split a char list into its leading digits and the rest. -/
def spanDigits (cs : List Char) : List Char × List Char :=
  (cs.takeWhile Char.isDigit, cs.dropWhile Char.isDigit)

/-- Exponent part of a float literal: optional sign and digits, scaling `base`. -/
def expPart (base : PyQ) (cs : List Char) : Option PyQ :=
  let (pos, cs2) :=
    match cs with
    | '+' :: r => (true, r)
    | '-' :: r => (false, r)
    | r => (true, r)
  match digitsVal? cs2 with
  | some e => some (if pos then base.mul ⟨10 ^ e, 1⟩ else base.divQ ⟨10 ^ e, 1⟩)
  | Option.none => Option.none

/-- Python `float(s)`: sign, digits with optional dot, optional exponent. -/
def pyFloat? (s : String) : Option PyQ :=
  let cs := trimWs s
  let (neg, cs1) :=
    match cs with
    | '+' :: r => (false, r)
    | '-' :: r => (true, r)
    | r => (false, r)
  let (ip, r1) := spanDigits cs1
  let (fp, r2) :=
    match r1 with
    | '.' :: r => spanDigits r
    | r => (([] : List Char), r)
  if ip.isEmpty && fp.isEmpty then Option.none
  else
    let mag : PyQ := PyQ.add ⟨digitsNat ip, 1⟩ (pyQNorm (digitsNat fp) (10 ^ fp.length))
    let base : PyQ := if neg then mag.neg else mag
    match r2 with
    | [] => some base
    | 'e' :: r3 => expPart base r3
    | 'E' :: r3 => expPart base r3
    | _ => Option.none

/-- `Interpreter._to_numeric`: a string that parses as a number is converted
(`float` if it contains a dot, else `int`), anything else is kept. -/
def toNumeric : PyVal → PyVal
  | .str s =>
    if s.data.contains '.' then
      match pyFloat? s with
      | some q => .float q
      | Option.none => .str s
    else
      match pyInt? s with
      | some z => .int z
      | Option.none => .str s
  | v => v

/-- Python `isinstance(v, (int, float))` — true for booleans too. -/
def isNum : PyVal → Bool
  | .bool _ => true
  | .int _ => true
  | .float _ => true
  | _ => false

/-- Python `isinstance(v, str)`. -/
def isStrV : PyVal → Bool
  | .str _ => true
  | _ => false

/-- Python `isinstance(v, bool)`. -/
def isBoolV : PyVal → Bool
  | .bool _ => true
  | _ => false

/-- Is the value an actual float (not an int or bool)? -/
def isFloatV : PyVal → Bool
  | .float _ => true
  | _ => false

/-- Numeric value as an integer (used when no float is involved; bools are 0/1). -/
def numZ : PyVal → Int
  | .bool b => if b then 1 else 0
  | .int z => z
  | .float q => q.floorQ
  | _ => 0

/-- Numeric value as a rational (bools are 0/1). -/
def numQ : PyVal → PyQ
  | .bool b => if b then ⟨1, 1⟩ else ⟨0, 1⟩
  | .int z => ⟨z, 1⟩
  | .float q => q
  | _ => ⟨0, 1⟩

/-- Python `+` on numbers: int result unless a float is involved. -/
def numAdd (a b : PyVal) : PyVal :=
  if isFloatV a || isFloatV b then .float ((numQ a).add (numQ b)) else .int (numZ a + numZ b)

/-- Python `-` on numbers. -/
def numSub (a b : PyVal) : PyVal :=
  if isFloatV a || isFloatV b then .float ((numQ a).sub (numQ b)) else .int (numZ a - numZ b)

/-- Python `*` on numbers. -/
def numMul (a b : PyVal) : PyVal :=
  if isFloatV a || isFloatV b then .float ((numQ a).mul (numQ b)) else .int (numZ a * numZ b)

/-- Python `%` on numbers: floor-modulo; int result unless a float is involved. -/
def numMod (a b : PyVal) : PyVal :=
  if isFloatV a || isFloatV b then
    .float ((numQ a).sub ((numQ b).mul ⟨((numQ a).divQ (numQ b)).floorQ, 1⟩))
  else .int (Int.fmod (numZ a) (numZ b))

/-- Numeric comparison dispatch on the operator text. -/
def numCmp (op : String) (a b : PyQ) : Bool :=
  if op == "==" then a.beqQ b
  else if op == "!=" then !(a.beqQ b)
  else if op == "<" then a.ltQ b
  else if op == ">" then b.ltQ a
  else if op == "<=" then a.leQ b
  else b.leQ a

/-- Lexicographic order on char lists by code point (Python string order). -/
def charListLt : List Char → List Char → Bool
  | [], [] => false
  | [], _ :: _ => true
  | _ :: _, [] => false
  | a :: as2, b :: bs =>
    if a.toNat < b.toNat then true
    else if b.toNat < a.toNat then false
    else charListLt as2 bs

/-- Python `<` on strings. -/
def strLt (a b : String) : Bool := charListLt a.data b.data

/-- String comparison dispatch (Python lexicographic order by code point). -/
def strCmpB (op : String) (a b : String) : Bool :=
  if op == "==" then a == b
  else if op == "!=" then !(a == b)
  else if op == "<" then strLt a b
  else if op == ">" then strLt b a
  else if op == "<=" then strLt a b || a == b
  else strLt b a || a == b

/-- String form of an operand for `+` concatenation: `str(v)`, lowercased for
booleans (`str(left).lower() if isinstance(left, bool) ...`). -/
def concatStr : PyVal → String
  | .bool b => if b then "true" else "false"
  | v => pyStr v

/-- The string of a coerced value known to be a `str` (dummy otherwise). -/
def strOf : PyVal → String
  | .str s => s
  | _ => ""

def undefVarMsg (n : String) : String := "Undefined variable: " ++ quoteS n
def undefFunMsg (n : String) : String := "Undefined function: " ++ quoteS n

def nonNumMsg (op : String) (l r : PyVal) : String :=
  "Cannot apply " ++ quoteS op ++ " to non-numeric values (" ++ quoteS (pyStr l)
    ++ " and " ++ quoteS (pyStr r) ++ ")"

def cmpMsg (l r : PyVal) (op : String) : String :=
  "Cannot compare " ++ pyTypeName l ++ " and " ++ pyTypeName r ++ " with " ++ quoteS op

def arityMsg (nm : String) (want got : Nat) : String :=
  "Function " ++ quoteS nm ++ " expects " ++ toString want ++ " arguments, but got "
    ++ toString got

def unaryMsg (op : String) (v : PyVal) : String :=
  "Cannot apply unary " ++ quoteS op ++ " to non-numeric value " ++ quoteS (pyStr v)

def unknownUnaryMsg (op : String) : String :=
  "Unknown unary operator: " ++ quoteS op

/-- `Interpreter.apply_binary_operation`, mirrored branch by branch.
`and`/`or` combine the truthiness of both already-evaluated operands; the
remaining operators first coerce both operands with `_to_numeric`.  An
operator outside the source's list falls through to Python's implicit
`return None`. -/
def applyBinary (op : String) (l r : PyVal) : Except RErr PyVal :=
  if op == "and" then .ok (.bool (isTruthy l && isTruthy r))
  else if op == "or" then .ok (.bool (isTruthy l || isTruthy r))
  else
    let nl := toNumeric l
    let nr := toNumeric r
    if op == "+" then
      if isNum nl && isNum nr then .ok (numAdd nl nr)
      else .ok (.str (concatStr l ++ concatStr r))
    else if op == "-" || op == "*" || op == "/" || op == "%" then
      if !(isNum nl && isNum nr) then .error ⟨nonNumMsg op l r⟩
      else if op == "-" then .ok (numSub nl nr)
      else if op == "*" then .ok (numMul nl nr)
      else if op == "/" then
        if (numQ nr).isZero then .error ⟨"Division by zero"⟩
        else .ok (.float ((numQ nl).divQ (numQ nr)))
      else
        if (numQ nr).isZero then .error ⟨"Modulo by zero"⟩
        else .ok (numMod nl nr)
    else if op == "==" || op == "!=" || op == "<" || op == ">" || op == "<=" || op == ">=" then
      if isNum nl && isNum nr then .ok (.bool (numCmp op (numQ nl) (numQ nr)))
      else if isStrV nl && isStrV nr then .ok (.bool (strCmpB op (strOf nl) (strOf nr)))
      else if isBoolV nl && isBoolV nr then
        -- mirrored from the source; unreachable because bools already count as numeric
        .ok (.bool (numCmp op (numQ nl) (numQ nr)))
      else if op == "==" then .ok (.bool false)
      else if op == "!=" then .ok (.bool true)
      else .error ⟨cmpMsg l r op⟩
    else .ok .none

/-- Negation of a coerced numeric value (`-True == -1` in Python). -/
def negNum : PyVal → PyVal
  | .bool b => .int (-(if b then (1 : Int) else 0))
  | .int z => .int (-z)
  | .float q => .float q.neg
  | v => v

/-- `Interpreter.apply_unary_operation`: `not` works on anything; `-`/`+`
require a numeric operand after coercion, and `+` returns the coerced value. -/
def applyUnary (op : String) (v : PyVal) : Except RErr PyVal :=
  if op == "not" then .ok (.bool (!isTruthy v))
  else
    let nv := toNumeric v
    if !(isNum nv) then .error ⟨unaryMsg op v⟩
    else if op == "-" then .ok (negNum nv)
    else if op == "+" then .ok nv
    else .error ⟨unknownUnaryMsg op⟩

/-- Expression AST nodes from `src/parser.py`.  `num` carries a rational
because `parse_primary` builds `NumberLiteral(float(token.value))`: every
numeric literal is a Python float. -/
inductive Expr where
  | num (v : PyQ) : Expr
  | strL (s : String) : Expr
  | boolL (b : Bool) : Expr
  | ident (n : String) : Expr
  | binop (l : Expr) (op : String) (r : Expr) : Expr
  | unop (op : String) (e : Expr) : Expr
  | paren (e : Expr) : Expr
  | inputC (prompt : Expr) : Expr
  | call (fn : String) (args : List Expr) : Expr
deriving Repr

/-- Statement AST nodes from `src/parser.py`. -/
inductive Stmt where
  | say (e : Expr) : Stmt
  | assign (nm : String) (e : Expr) : Stmt
  | ifS (c : Expr) (thenB : Stmt) (elseB : Option Stmt) : Stmt
  | block (ss : List Stmt) : Stmt
  | whileS (c : Expr) (body : Stmt) : Stmt
  | forS (v : String) (start stop : Expr) (stp : Option Expr) (body : Stmt) : Stmt
  | funcDef (nm : String) (params : List String) (body : Stmt) : Stmt
  | ret (e : Option Expr) : Stmt
deriving Repr

/-- A stored `FunctionDefinition` (what `Environment.functions` maps names to). -/
structure FunDef where
  params : List String
  body : Stmt
deriving Repr

/-- A `Program`: the ordered top-level statements. -/
structure Program where
  stmts : List Stmt
deriving Repr

/-- The interpreter's mutable state: `Environment.variables`,
`Environment.functions`, the output buffer, `return_value`, `should_return`,
and the host-supplied input stream (`dorolang_input`) with a cursor. -/
structure St where
  vars : String → Option PyVal
  funcs : String → Option FunDef
  output : List String
  retVal : PyVal
  shouldReturn : Bool
  inputs : Nat → String
  inputIdx : Nat

/-- Point update of a string-keyed map (Python dict assignment). -/
def upd {α : Type} (m : String → Option α) (k : String) (v : α) : String → Option α :=
  fun x => if x = k then some v else m x

/-- A unit of work for the executor: the bodies of the mutually recursive
Python methods `evaluate_expression` / `execute_statement` /
`execute_block_statement` / the top-level statement loop of `interpret` /
`call_function` (lookup+arity+bind+body+restore, with `bindA` the
`zip(parameters, arguments)` loop) / the two `for` iteration loops. -/
inductive Job where
  | expr (e : Expr) : Job
  | stmt (s : Stmt) : Job
  | block (ss : List Stmt) : Job
  | seq (ss : List Stmt) : Job
  | callT (nm : String) (args : List Expr) : Job
  | bindA (ps : List String) (args : List Expr) : Job
  | forLoop (down : Bool) (v : String) (cur stop stp : PyVal) (body : Stmt) : Job

/-- Execution result: `none` is fuel exhaustion; otherwise the Python result
(or the propagating `RuntimeError`) together with the state at that point. -/
abbrev Res := Option (Except RErr PyVal × St)

/-- Sequencing that mirrors Python exception flow: an error propagates with
the state at the raise point, a normal value feeds the continuation. -/
def step (o : Res) (k : PyVal → St → Res) : Res :=
  match o with
  | Option.none => Option.none
  | some (.error e, s) => some (.error e, s)
  | some (.ok v, s) => k v s

/-- The interpreter proper: a direct transcription of the recursive walk in
`src/interpreter.py`, with one fuel unit consumed per recursive entry.
Statements yield `PyVal.none` (Python methods returning `None`). -/
def run : Nat → Job → St → Res
  | 0, _, _ => Option.none
  | fuel + 1, t, st =>
    match t with
    | .expr e =>
      match e with
      | .num q => some (.ok (.float q), st)
      | .strL s => some (.ok (.str s), st)
      | .boolL b => some (.ok (.bool b), st)
      | .ident n =>
        match st.vars n with
        | some v => some (.ok v, st)
        | Option.none => some (.error ⟨undefVarMsg n⟩, st)
      | .binop l op r =>
        step (run fuel (.expr l) st) fun lv st1 =>
        step (run fuel (.expr r) st1) fun rv st2 =>
        match applyBinary op lv rv with
        | .ok v => some (.ok v, st2)
        | .error er => some (.error er, st2)
      | .unop op e1 =>
        step (run fuel (.expr e1) st) fun v st1 =>
        match applyUnary op v with
        | .ok w => some (.ok w, st1)
        | .error er => some (.error er, st1)
      | .paren e1 => run fuel (.expr e1) st
      | .inputC p =>
        step (run fuel (.expr p) st) fun _ st1 =>
        some (.ok (.str (st1.inputs st1.inputIdx)), { st1 with inputIdx := st1.inputIdx + 1 })
      | .call nm args => run fuel (.callT nm args) st
    | .callT nm args =>
      match st.funcs nm with
      | Option.none => some (.error ⟨undefFunMsg nm⟩, st)
      | some f =>
        if args.length = f.params.length then
          let old := st.vars
          step (run fuel (.bindA f.params args) st) fun _ st1 =>
          step (run fuel (.stmt f.body) { st1 with shouldReturn := false, retVal := .none })
            fun _ st3 =>
          some (.ok st3.retVal, { st3 with vars := old, shouldReturn := false })
        else some (.error ⟨arityMsg nm f.params.length args.length⟩, st)
    | .bindA ps args =>
      match ps, args with
      | p :: ps2, a :: as2 =>
        step (run fuel (.expr a) st) fun v st1 =>
        run fuel (.bindA ps2 as2) { st1 with vars := upd st1.vars p v }
      | _, _ => some (.ok .none, st)
    | .stmt s =>
      match s with
      | .say e =>
        step (run fuel (.expr e) st) fun v st1 =>
        some (.ok .none, { st1 with output := st1.output ++ [pyStr v] })
      | .assign nm e =>
        step (run fuel (.expr e) st) fun v st1 =>
        some (.ok .none, { st1 with vars := upd st1.vars nm v })
      | .ifS c tb eb =>
        step (run fuel (.expr c) st) fun cv st1 =>
        if isTruthy cv then run fuel (.stmt tb) st1
        else
          match eb with
          | some s2 => run fuel (.stmt s2) st1
          | Option.none => some (.ok .none, st1)
      | .block ss => run fuel (.block ss) st
      | .whileS c b =>
        step (run fuel (.expr c) st) fun cv st1 =>
        if isTruthy cv then
          step (run fuel (.stmt b) st1) fun _ st2 =>
          run fuel (.stmt (.whileS c b)) st2
        else some (.ok .none, st1)
      | .forS v se ee pe b =>
        step (run fuel (.expr se) st) fun sv stA =>
        step (run fuel (.expr ee) stA) fun ev stB =>
        step (match pe with
              | some p => run fuel (.expr p) stB
              | Option.none => some (.ok (.int 1), stB)) fun pv stC =>
        let sN := toNumeric sv
        let eN := toNumeric ev
        let pN := toNumeric pv
        if isNum sN && isNum eN && isNum pN then
          let stD := { stC with vars := upd stC.vars v sN }
          if (⟨0, 1⟩ : PyQ).ltQ (numQ pN) then run fuel (.forLoop false v sN eN pN b) stD
          else if (numQ pN).ltQ ⟨0, 1⟩ then run fuel (.forLoop true v sN eN pN b) stD
          else some (.error ⟨"For loop step cannot be zero"⟩, stD)
        else some (.error ⟨"For loop requires numeric values for start, end, and step"⟩, stC)
      | .funcDef nm ps b =>
        some (.ok .none, { st with funcs := upd st.funcs nm ⟨ps, b⟩ })
      | .ret oe =>
        match oe with
        | some e =>
          step (run fuel (.expr e) st) fun v st1 =>
          some (.ok .none, { st1 with retVal := v, shouldReturn := true })
        | Option.none => some (.ok .none, { st with retVal := .none, shouldReturn := true })
    | .block ss =>
      match ss with
      | [] => some (.ok .none, st)
      | s :: rest =>
        if st.shouldReturn then some (.ok .none, st)
        else
          step (run fuel (.stmt s) st) fun _ st1 =>
          run fuel (.block rest) st1
    | .seq ss =>
      match ss with
      | [] => some (.ok .none, st)
      | s :: rest =>
        step (run fuel (.stmt s) st) fun _ st1 =>
        run fuel (.seq rest) st1
    | .forLoop down v cur stop stp b =>
      if (if down then (numQ stop).leQ (numQ cur) else (numQ cur).leQ (numQ stop)) then
        step (run fuel (.stmt b) st) fun _ st1 =>
        let nxt := numAdd cur stp
        run fuel (.forLoop down v nxt stop stp b) { st1 with vars := upd st1.vars v nxt }
      else some (.ok .none, st)

/-- The in-band error line `interpret()` appends when catching a RuntimeError. -/
def errLine (e : RErr) : String := "❌ Runtime error: " ++ e.message

/-- `Interpreter.interpret`: clear the output buffer, run the top-level
statements, catch the first `RuntimeError` and append it as an in-band line. -/
def interpretF (fuel : Nat) (p : Program) (st : St) : Option (List String × St) :=
  match run fuel (.seq p.stmts) { st with output := [] } with
  | Option.none => Option.none
  | some (.ok _, st1) => some (st1.output, st1)
  | some (.error e, st1) =>
    let st2 := { st1 with output := st1.output ++ [errLine e] }
    some (st2.output, st2)

/-- `Interpreter.reset`: clear both environment maps, the output buffer and
the return machinery (the host input stream is outside the interpreter). -/
def resetI (st : St) : St :=
  { st with vars := fun _ => Option.none, funcs := fun _ => Option.none,
            output := [], retVal := .none, shouldReturn := false }

/-- A fresh interpreter state over a constant host input stream. -/
def initSt : St :=
  { vars := fun _ => Option.none, funcs := fun _ => Option.none, output := [],
    retVal := .none, shouldReturn := false, inputs := fun _ => "", inputIdx := 0 }

/-- Output list of an `interpret()` call (the observable the claims discuss). -/
def runOutput (fuel : Nat) (p : Program) (st : St) : Option (List String) :=
  (interpretF fuel p st).map (·.1)

/-- A single variable binding after an `interpret()` call. -/
def runVarF (fuel : Nat) (p : Program) (st : St) (x : String) : Option (Option PyVal) :=
  (interpretF fuel p st).map (fun r => r.2.vars x)

/-- Value of a single expression evaluated in a state. -/
def evalV (fuel : Nat) (e : Expr) (st : St) : Option (Except RErr PyVal) :=
  (run fuel (.expr e) st).map (·.1)

mutual
/-- The expression mentions no `input()` call. -/
def Expr.noInput : Expr → Bool
  | .inputC _ => false
  | .binop l _ r => l.noInput && r.noInput
  | .unop _ e => e.noInput
  | .paren e => e.noInput
  | .call _ args => exprsNoInput args
  | _ => true
/-- No expression of the list mentions `input()`. -/
def exprsNoInput : List Expr → Bool
  | [] => true
  | e :: es => e.noInput && exprsNoInput es
end

mutual
/-- The statement mentions no `input()` call. -/
def Stmt.noInput : Stmt → Bool
  | .say e => e.noInput
  | .assign _ e => e.noInput
  | .ifS c t e => c.noInput && t.noInput && optNoInput e
  | .block ss => stmtsNoInput ss
  | .whileS c b => c.noInput && b.noInput
  | .forS _ s e stp b =>
    s.noInput && e.noInput && (match stp with | some x => x.noInput | Option.none => true)
      && b.noInput
  | .funcDef _ _ b => b.noInput
  | .ret e => match e with | some x => x.noInput | Option.none => true
/-- The optional statement mentions no `input()` call. -/
def optNoInput : Option Stmt → Bool
  | some s => s.noInput
  | Option.none => true
/-- No statement of the list mentions `input()`. -/
def stmtsNoInput : List Stmt → Bool
  | [] => true
  | s :: ss => s.noInput && stmtsNoInput ss
end

/-- The program mentions no `input()` call. -/
def Program.noInput (p : Program) : Bool := stmtsNoInput p.stmts

/-- The job mentions no `input()` call. -/
def Job.noInput : Job → Bool
  | .expr e => e.noInput
  | .stmt s => s.noInput
  | .block ss => stmtsNoInput ss
  | .seq ss => stmtsNoInput ss
  | .callT _ args => exprsNoInput args
  | .bindA _ args => exprsNoInput args
  | .forLoop _ _ _ _ _ b => b.noInput

/-- Booleans count as numeric for the interpreter's `isinstance` tests. -/
theorem boolIsNum (v : PyVal) (h : isBoolV v = true) : isNum v = true := by
  cases v <;> simp_all [isBoolV, isNum]

/-! ### Unfolding equations for `step` and `run` -/

theorem step_none {k : PyVal → St → Res} : step Option.none k = Option.none := rfl

theorem step_err {e : RErr} {s : St} {k : PyVal → St → Res} :
    step (some (.error e, s)) k = some (.error e, s) := rfl

theorem step_ok {v : PyVal} {s : St} {k : PyVal → St → Res} :
    step (some (.ok v, s)) k = k v s := rfl

theorem runEq_zero (t : Job) (st : St) : run 0 t st = Option.none := rfl

theorem runEq_num (fuel : Nat) (q : PyQ) (st : St) :
    run (fuel + 1) (.expr (.num q)) st = some (.ok (.float q), st) := rfl

theorem runEq_strL (fuel : Nat) (s : String) (st : St) :
    run (fuel + 1) (.expr (.strL s)) st = some (.ok (.str s), st) := rfl

theorem runEq_boolL (fuel : Nat) (b : Bool) (st : St) :
    run (fuel + 1) (.expr (.boolL b)) st = some (.ok (.bool b), st) := rfl

theorem runEq_ident (fuel : Nat) (n : String) (st : St) :
    run (fuel + 1) (.expr (.ident n)) st =
      (match st.vars n with
       | some v => some (.ok v, st)
       | Option.none => some (.error ⟨undefVarMsg n⟩, st)) := rfl

theorem runEq_binop (fuel : Nat) (l : Expr) (op : String) (r : Expr) (st : St) :
    run (fuel + 1) (.expr (.binop l op r)) st =
      (step (run fuel (.expr l) st) fun lv st1 =>
       step (run fuel (.expr r) st1) fun rv st2 =>
       match applyBinary op lv rv with
       | .ok v => some (.ok v, st2)
       | .error er => some (.error er, st2)) := rfl

theorem runEq_unop (fuel : Nat) (op : String) (e1 : Expr) (st : St) :
    run (fuel + 1) (.expr (.unop op e1)) st =
      (step (run fuel (.expr e1) st) fun v st1 =>
       match applyUnary op v with
       | .ok w => some (.ok w, st1)
       | .error er => some (.error er, st1)) := rfl

theorem runEq_paren (fuel : Nat) (e1 : Expr) (st : St) :
    run (fuel + 1) (.expr (.paren e1)) st = run fuel (.expr e1) st := rfl

theorem runEq_input (fuel : Nat) (p : Expr) (st : St) :
    run (fuel + 1) (.expr (.inputC p)) st =
      (step (run fuel (.expr p) st) fun _ st1 =>
       some (.ok (.str (st1.inputs st1.inputIdx)), { st1 with inputIdx := st1.inputIdx + 1 })) :=
  rfl

theorem runEq_call (fuel : Nat) (nm : String) (args : List Expr) (st : St) :
    run (fuel + 1) (.expr (.call nm args)) st = run fuel (.callT nm args) st := rfl

theorem runEq_callT (fuel : Nat) (nm : String) (args : List Expr) (st : St) :
    run (fuel + 1) (.callT nm args) st =
      (match st.funcs nm with
       | Option.none => some (.error ⟨undefFunMsg nm⟩, st)
       | some f =>
         if args.length = f.params.length then
           step (run fuel (.bindA f.params args) st) fun _ st1 =>
           step (run fuel (.stmt f.body) { st1 with shouldReturn := false, retVal := .none })
             fun _ st3 =>
           some (.ok st3.retVal, { st3 with vars := st.vars, shouldReturn := false })
         else some (.error ⟨arityMsg nm f.params.length args.length⟩, st)) := rfl

theorem runEq_bindA_cons (fuel : Nat) (p : String) (ps2 : List String) (a : Expr)
    (as2 : List Expr) (st : St) :
    run (fuel + 1) (.bindA (p :: ps2) (a :: as2)) st =
      (step (run fuel (.expr a) st) fun v st1 =>
       run fuel (.bindA ps2 as2) { st1 with vars := upd st1.vars p v }) := rfl

theorem runEq_bindA_nil (fuel : Nat) (st : St) :
    run (fuel + 1) (.bindA [] []) st = some (.ok .none, st) := rfl

theorem runEq_say (fuel : Nat) (e : Expr) (st : St) :
    run (fuel + 1) (.stmt (.say e)) st =
      (step (run fuel (.expr e) st) fun v st1 =>
       some (.ok .none, { st1 with output := st1.output ++ [pyStr v] })) := rfl

theorem runEq_assign (fuel : Nat) (nm : String) (e : Expr) (st : St) :
    run (fuel + 1) (.stmt (.assign nm e)) st =
      (step (run fuel (.expr e) st) fun v st1 =>
       some (.ok .none, { st1 with vars := upd st1.vars nm v })) := rfl

theorem runEq_if (fuel : Nat) (c : Expr) (tb : Stmt) (eb : Option Stmt) (st : St) :
    run (fuel + 1) (.stmt (.ifS c tb eb)) st =
      (step (run fuel (.expr c) st) fun cv st1 =>
       if isTruthy cv then run fuel (.stmt tb) st1
       else
         match eb with
         | some s2 => run fuel (.stmt s2) st1
         | Option.none => some (.ok .none, st1)) := rfl

theorem runEq_stmt_block (fuel : Nat) (ss : List Stmt) (st : St) :
    run (fuel + 1) (.stmt (.block ss)) st = run fuel (.block ss) st := rfl

theorem runEq_while (fuel : Nat) (c : Expr) (b : Stmt) (st : St) :
    run (fuel + 1) (.stmt (.whileS c b)) st =
      (step (run fuel (.expr c) st) fun cv st1 =>
       if isTruthy cv then
         step (run fuel (.stmt b) st1) fun _ st2 =>
         run fuel (.stmt (.whileS c b)) st2
       else some (.ok .none, st1)) := rfl

theorem runEq_for (fuel : Nat) (v : String) (se ee : Expr) (pe : Option Expr) (b : Stmt)
    (st : St) :
    run (fuel + 1) (.stmt (.forS v se ee pe b)) st =
      (step (run fuel (.expr se) st) fun sv stA =>
       step (run fuel (.expr ee) stA) fun ev stB =>
       step (match pe with
             | some p => run fuel (.expr p) stB
             | Option.none => some (.ok (.int 1), stB)) fun pv stC =>
       let sN := toNumeric sv
       let eN := toNumeric ev
       let pN := toNumeric pv
       if isNum sN && isNum eN && isNum pN then
         let stD := { stC with vars := upd stC.vars v sN }
         if (⟨0, 1⟩ : PyQ).ltQ (numQ pN) then run fuel (.forLoop false v sN eN pN b) stD
         else if (numQ pN).ltQ ⟨0, 1⟩ then run fuel (.forLoop true v sN eN pN b) stD
         else some (.error ⟨"For loop step cannot be zero"⟩, stD)
       else some (.error ⟨"For loop requires numeric values for start, end, and step"⟩, stC)) :=
  rfl

theorem runEq_funcDef (fuel : Nat) (nm : String) (ps : List String) (b : Stmt) (st : St) :
    run (fuel + 1) (.stmt (.funcDef nm ps b)) st =
      some (.ok .none, { st with funcs := upd st.funcs nm ⟨ps, b⟩ }) := rfl

theorem runEq_ret_some (fuel : Nat) (e : Expr) (st : St) :
    run (fuel + 1) (.stmt (.ret (some e))) st =
      (step (run fuel (.expr e) st) fun v st1 =>
       some (.ok .none, { st1 with retVal := v, shouldReturn := true })) := rfl

theorem runEq_ret_none (fuel : Nat) (st : St) :
    run (fuel + 1) (.stmt (.ret Option.none)) st =
      some (.ok .none, { st with retVal := .none, shouldReturn := true }) := rfl

theorem runEq_block_nil (fuel : Nat) (st : St) :
    run (fuel + 1) (.block []) st = some (.ok .none, st) := rfl

theorem runEq_block_cons (fuel : Nat) (s : Stmt) (rest : List Stmt) (st : St) :
    run (fuel + 1) (.block (s :: rest)) st =
      (if st.shouldReturn then some (.ok .none, st)
       else
         step (run fuel (.stmt s) st) fun _ st1 =>
         run fuel (.block rest) st1) := rfl

theorem runEq_seq_nil (fuel : Nat) (st : St) :
    run (fuel + 1) (.seq []) st = some (.ok .none, st) := rfl

theorem runEq_seq_cons (fuel : Nat) (s : Stmt) (rest : List Stmt) (st : St) :
    run (fuel + 1) (.seq (s :: rest)) st =
      (step (run fuel (.stmt s) st) fun _ st1 =>
       run fuel (.seq rest) st1) := rfl

theorem runEq_forLoop (fuel : Nat) (down : Bool) (v : String) (cur stop stp : PyVal)
    (b : Stmt) (st : St) :
    run (fuel + 1) (.forLoop down v cur stop stp b) st =
      (if (if down then (numQ stop).leQ (numQ cur) else (numQ cur).leQ (numQ stop)) then
         step (run fuel (.stmt b) st) fun _ st1 =>
         run fuel (.forLoop down v (numAdd cur stp) stop stp b)
           { st1 with vars := upd st1.vars v (numAdd cur stp) }
       else some (.ok .none, st)) := rfl

/-! ### Concrete programs used by the claims -/

/-- `kas x = 100` / `function f(x, y) { say y }` / `kas r = f(1, x)`. -/
def c1prog : Program := ⟨[
  .assign "x" (.num 100),
  .funcDef "f" ["x", "y"] (.block [.say (.ident "y")]),
  .assign "r" (.call "f" [.num 1, .ident "x"])]⟩

/-- `kas x = 7` / `function f(x, y) { say y }` / `kas r = f(2, x + 1)`. -/
def c1prog2 : Program := ⟨[
  .assign "x" (.num 7),
  .funcDef "f" ["x", "y"] (.block [.say (.ident "y")]),
  .assign "r" (.call "f" [.num 2, .binop (.ident "x") "+" (.num 1)])]⟩

/-- `function f() { kas a = 1 }` / `kas r = f()` / `say r`. -/
def c4prog : Program := ⟨[
  .funcDef "f" [] (.block [.assign "a" (.num 1)]),
  .assign "r" (.call "f" []),
  .say (.ident "r")]⟩

/-- `function g() { return` `  say "after" }` / `kas r = g()` / `say r`. -/
def c4prog2 : Program := ⟨[
  .funcDef "g" [] (.block [.ret Option.none, .say (.strL "after")]),
  .assign "r" (.call "g" []),
  .say (.ident "r")]⟩

/-- `say false and (1 / 0)`. -/
def c5prog : Program :=
  ⟨[.say (.binop (.boolL false) "and" (.paren (.binop (.num 1) "/" (.num 0))))]⟩

/-- `for kas i = 1 to 3 { say i` `return }` / `say i`. -/
def c6prog : Program := ⟨[
  .forS "i" (.num 1) (.num 3) Option.none (.block [.say (.ident "i"), .ret Option.none]),
  .say (.ident "i")]⟩

/-- `kas x = 1` / `say x` / `kas y = 1 / 0` / `say 2`. -/
def c7prog : Program := ⟨[
  .assign "x" (.num 1),
  .say (.ident "x"),
  .assign "y" (.binop (.num 1) "/" (.num 0)),
  .say (.num 2)]⟩

/-- The state in which execution of `c7prog` raises its division error. -/
def c7st : St :=
  match run 100 (.seq c7prog.stmts) { initSt with output := [] } with
  | some (_, s) => s
  | Option.none => initSt

/-- `for kas i = 10 to 1 step -1 { say i }`. -/
def c8down : Program := ⟨[
  .forS "i" (.num 10) (.num 1) (some (.unop "-" (.num 1))) (.block [.say (.ident "i")])]⟩

/-- `for kas i = 1 to 5 step 0 { say i }`. -/
def c8zero : Program := ⟨[
  .forS "i" (.num 1) (.num 5) (some (.num 0)) (.block [.say (.ident "i")])]⟩

/-- `if true { say "A" }` / `return`. -/
def c9prog : Program := ⟨[
  .ifS (.boolL true) (.block [.say (.strL "A")]) Option.none,
  .ret Option.none]⟩

/-- Two consecutive `interpret()` calls on the same interpreter state;
returns both output lists. -/
def runTwice (fuel : Nat) (p : Program) (s0 : St) : Option (List String × List String) :=
  match interpretF fuel p s0 with
  | some (o1, s1) =>
    match interpretF fuel p s1 with
    | some (o2, _) => some (o1, o2)
    | Option.none => Option.none
  | Option.none => Option.none

/-- `kas g = 0` / `function f(p) { kas x = 7` `kas y = 1 / 0 }` / `kas r = f(5)`. -/
def c10prog : Program := ⟨[
  .assign "g" (.num 0),
  .funcDef "f" ["p"] (.block [.assign "x" (.num 7), .assign "y" (.binop (.num 1) "/" (.num 0))]),
  .assign "r" (.call "f" [.num 5])]⟩

/-- Same call but with a body that completes normally. -/
def c10prog2 : Program := ⟨[
  .assign "g" (.num 0),
  .funcDef "f" ["p"] (.block [.assign "x" (.num 7)]),
  .assign "r" (.call "f" [.num 5])]⟩

/-! ### Claims C1 to C8 and C10, and the C9 counterexample -/

/-- C1, counterexample: in `kas x = 100; function f(x, y) { say y }; f(1, x)`
the second argument `x` is evaluated after parameter `x` is already bound to
`1.0`, so the program prints `1.0`; the claim's reading (argument reads the
caller's binding `100`) would print `100.0`. -/
theorem c1_counterexample :
    runOutput 100 c1prog initSt = some ["1.0"]
      ∧ (some ["1.0"] : Option (List String)) ≠ some ["100.0"] :=
  ⟨rfl, by decide⟩

/-- C1, amended: `call_function` evaluates arguments left to right but binds
each parameter into the live variable map immediately, before the next
argument is evaluated; an argument naming a variable shadowed by an earlier
parameter reads the freshly bound parameter value.  Concretely, with
caller `x = 7`, `f(2, x + 1)` passes `y = 3.0`. -/
theorem c1_theorem :
    (∀ (fuel : Nat) (p : String) (ps : List String) (a : Expr) (as2 : List Expr) (st : St),
      run (fuel + 1) (.bindA (p :: ps) (a :: as2)) st =
        step (run fuel (.expr a) st)
          (fun v st1 => run fuel (.bindA ps as2) { st1 with vars := upd st1.vars p v }))
      ∧ runOutput 100 c1prog2 initSt = some ["3.0"] :=
  ⟨fun _ _ _ _ _ _ => rfl, rfl⟩

/-- C2, counterexample: `"Age: " + 5` evaluates to `"Age: 5.0"`, not
`"Age: 5"`: the literal `5` is a Python float (`NumberLiteral(float(...))`)
and `str(5.0)` is `"5.0"`. -/
theorem c2_counterexample :
    evalV 10 (.binop (.strL "Age: ") "+" (.num 5)) initSt = some (.ok (.str "Age: 5.0"))
      ∧ PyVal.str "Age: 5.0" ≠ PyVal.str "Age: 5" :=
  ⟨rfl, by decide⟩

/-- C2, amended: when either operand of `+` is non-numeric after coercion
(booleans counting as numeric, since Python `bool` is an `int` subclass),
the result is the concatenation of the `str()` forms of both original
operands with booleans lowercased; numeric literals render as Python floats,
so `say "Age: " + 5` prints `Age: 5.0`. -/
theorem c2_theorem :
    (∀ l r : PyVal, (isNum (toNumeric l) && isNum (toNumeric r)) = false →
      applyBinary "+" l r = .ok (.str (concatStr l ++ concatStr r)))
      ∧ runOutput 100 ⟨[.say (.binop (.strL "Age: ") "+" (.num 5))]⟩ initSt
          = some ["Age: 5.0"] := by
  refine ⟨?_, rfl⟩
  intro l r h
  simp [applyBinary, h]

/-- C2, witness for the amended concatenation rule at `l = "Age: "`, `r = 5.0`. -/
theorem c2_theorem_witness :
    (isNum (toNumeric (.str "Age: ")) && isNum (toNumeric (.float 5))) = false
      ∧ applyBinary "+" (.str "Age: ") (.float 5)
          = .ok (.str (concatStr (.str "Age: ") ++ concatStr (.float 5))) :=
  ⟨rfl, c2_theorem.1 (.str "Age: ") (.float 5) rfl⟩

/-- C3, counterexample: `true` and the number `1` have different types in
the spec's taxonomy, yet `true == 1` evaluates to `true` (not `false`) and
`true < 2` evaluates to `true` (instead of raising): Python booleans pass
the `isinstance(·, (int, float))` test, so the numeric branch compares them
as 0/1. -/
theorem c3_counterexample :
    applyBinary "==" (.bool true) (.float 1) = .ok (.bool true)
      ∧ applyBinary "<" (.bool true) (.float 2) = .ok (.bool true)
      ∧ runOutput 100 ⟨[.say (.binop (.boolL true) "==" (.num 1))]⟩ initSt = some ["True"]
      ∧ (Except.ok (PyVal.bool true) : Except RErr PyVal) ≠ .ok (.bool false) :=
  ⟨rfl, rfl, rfl, by decide⟩

/-- C3, amended: after coercion, pairs that are neither both numeric
(booleans count as numeric) nor both strings make `==` false and `!=` true
and make the four ordering operators a RuntimeError; boolean-number pairs
fall in the numeric branch and compare with the boolean as 0/1. -/
theorem c3_theorem :
    (∀ l r : PyVal,
      (isNum (toNumeric l) && isNum (toNumeric r)) = false →
      (isStrV (toNumeric l) && isStrV (toNumeric r)) = false →
      applyBinary "==" l r = .ok (.bool false)
        ∧ applyBinary "!=" l r = .ok (.bool true)
        ∧ applyBinary "<" l r = .error ⟨cmpMsg l r "<"⟩
        ∧ applyBinary ">" l r = .error ⟨cmpMsg l r ">"⟩
        ∧ applyBinary "<=" l r = .error ⟨cmpMsg l r "<="⟩
        ∧ applyBinary ">=" l r = .error ⟨cmpMsg l r ">="⟩)
      ∧ (∀ (b : Bool) (q : PyQ),
        applyBinary "==" (.bool b) (.float q) = .ok (.bool ((numQ (.bool b)).beqQ q))
          ∧ applyBinary "<" (.bool b) (.float q) = .ok (.bool ((numQ (.bool b)).ltQ q))) := by
  constructor
  · intro l r hn hs
    have hb : (isBoolV (toNumeric l) && isBoolV (toNumeric r)) = false := by
      cases h1 : isBoolV (toNumeric l)
      · simp
      · cases h2 : isBoolV (toNumeric r)
        · simp
        · rw [boolIsNum _ h1, boolIsNum _ h2] at hn
          simp at hn
    refine ⟨?_, ?_, ?_, ?_, ?_, ?_⟩ <;> simp [applyBinary, hn, hs, hb]
  · intro b q
    cases b <;> exact ⟨rfl, rfl⟩

/-- C3, witness for the amended mismatch rule at `l = "abc"`, `r = 5`. -/
theorem c3_theorem_witness :
    (isNum (toNumeric (.str "abc")) && isNum (toNumeric (.int 5))) = false
      ∧ (isStrV (toNumeric (.str "abc")) && isStrV (toNumeric (.int 5))) = false
      ∧ applyBinary "==" (.str "abc") (.int 5) = .ok (.bool false)
      ∧ applyBinary "<" (.str "abc") (.int 5)
          = .error ⟨cmpMsg (.str "abc") (.int 5) "<"⟩ :=
  ⟨rfl, rfl, (c3_theorem.1 (.str "abc") (.int 5) rfl rfl).1,
    (c3_theorem.1 (.str "abc") (.int 5) rfl rfl).2.2.1⟩

/-- C4, counterexample: a function whose body executes no `return` yields
Python `None`: after `function f() { kas a = 1 }; kas r = f(); say r` the
program prints `None` and `r` holds the null value, which is neither a
Number, a Text nor a Boolean. -/
theorem c4_counterexample :
    runOutput 100 c4prog initSt = some ["None"]
      ∧ runVarF 100 c4prog initSt "r" = some (some PyVal.none)
      ∧ isNum PyVal.none = false ∧ isStrV PyVal.none = false
      ∧ isBoolV PyVal.none = false :=
  ⟨rfl, rfl, rfl, rfl, rfl⟩

/-- C4, amended: a value-less `return` (and a body with no `return` at all)
makes the call yield the interpreter's internal null (`None`), and that null
is exposed to user code: it can be assigned and `say` prints it as `None`. -/
theorem c4_theorem :
    runOutput 100 c4prog2 initSt = some ["None"]
      ∧ runVarF 100 c4prog2 initSt "r" = some (some PyVal.none) :=
  ⟨rfl, rfl⟩

/-- C5: `and`/`or` evaluate both operands before combining: if the left
operand evaluates normally and the right operand raises, the whole
expression raises that error whatever the left value was; concretely
`say false and (1 / 0)` reports a division-by-zero RuntimeError instead of
short-circuiting to `false`. -/
theorem c5_theorem :
    (∀ (fuel : Nat) (l r : Expr) (st s1 s2 : St) (lv : PyVal) (e : RErr),
      run fuel (.expr l) st = some (.ok lv, s1) →
      run fuel (.expr r) s1 = some (.error e, s2) →
      run (fuel + 1) (.expr (.binop l "and" r)) st = some (.error e, s2)
        ∧ run (fuel + 1) (.expr (.binop l "or" r)) st = some (.error e, s2))
      ∧ runOutput 100 c5prog initSt = some ["❌ Runtime error: Division by zero"] := by
  refine ⟨?_, rfl⟩
  intro fuel l r st s1 s2 lv e hl hr
  constructor <;> rw [runEq_binop, hl, step_ok, hr, step_err]

/-- C5, witness: left operand `false`, right operand `(1 / 0)`. -/
theorem c5_theorem_witness :
    run 10 (.expr (.boolL false)) initSt = some (.ok (.bool false), initSt)
      ∧ run 10 (.expr (.paren (.binop (.num 1) "/" (.num 0)))) initSt
          = some (.error ⟨"Division by zero"⟩, initSt)
      ∧ run 11 (.expr (.binop (.boolL false) "and" (.paren (.binop (.num 1) "/" (.num 0))))) initSt
          = some (.error ⟨"Division by zero"⟩, initSt) :=
  ⟨rfl, rfl,
    (c5_theorem.1 10 (.boolL false) (.paren (.binop (.num 1) "/" (.num 0)))
      initSt initSt initSt (.bool false) ⟨"Division by zero"⟩ rfl rfl).1⟩

/-- C6: a `return` inside a loop body does not terminate the loop.  In
`for kas i = 1 to 3 { say i` `return }` / `say i`, only the first iteration
prints (subsequent iterations' blocks skip every statement because the
pending-return flag is set) yet the loop runs to natural completion, leaving
`i = 4.0`; and a `while true` loop whose body is a block never terminates
once the flag is set (the flag is not checked by the loop). -/
theorem c6_theorem :
    runOutput 100 c6prog initSt = some ["1.0", "4.0"]
      ∧ (∀ (fuel : Nat) (ss : List Stmt) (st : St), st.shouldReturn = true →
        run fuel (.stmt (.whileS (.boolL true) (.block ss))) st = Option.none) := by
  refine ⟨rfl, ?_⟩
  intro fuel
  induction fuel with
  | zero => intro ss st _; rfl
  | succ n ih =>
    intro ss st h
    rw [runEq_while]
    cases n with
    | zero => rfl
    | succ m =>
      rw [runEq_boolL, step_ok]
      show (if isTruthy (.bool true) then _ else _ : Res) = _
      rw [if_pos (by rfl)]
      rw [runEq_stmt_block]
      cases m with
      | zero => rfl
      | succ j =>
        cases ss with
        | nil =>
          rw [runEq_block_nil, step_ok]
          exact ih [] st h
        | cons s rest =>
          rw [runEq_block_cons, if_pos (by rw [h]), step_ok]
          exact ih (s :: rest) st h

/-- C6, witness for the while part: flag already set, empty block body. -/
theorem c6_theorem_witness :
    ({ initSt with shouldReturn := true } : St).shouldReturn = true
      ∧ run 5 (.stmt (.whileS (.boolL true) (.block [])))
          { initSt with shouldReturn := true } = Option.none :=
  ⟨rfl, c6_theorem.2 5 [] { initSt with shouldReturn := true } rfl⟩

/-- C7: `interpret()` catches the first RuntimeError of the call: the error
is appended as the one final in-band output line and the returned state is
exactly the error-point state (so every binding made before the error
survives), and a statement that raises makes the whole top-level sequence
stop with the remaining statements untouched. -/
theorem c7_theorem :
    (∀ (fuel : Nat) (p : Program) (st : St) (e : RErr) (st1 : St),
      run fuel (.seq p.stmts) { st with output := [] } = some (.error e, st1) →
      interpretF fuel p st
        = some (st1.output ++ [errLine e], { st1 with output := st1.output ++ [errLine e] }))
      ∧ (∀ (fuel : Nat) (s : Stmt) (rest : List Stmt) (st : St) (e : RErr) (st1 : St),
        run fuel (.stmt s) st = some (.error e, st1) →
        run (fuel + 1) (.seq (s :: rest)) st = some (.error e, st1)) := by
  constructor
  · intro fuel p st e st1 h
    simp only [interpretF, h]
  · intro fuel s rest st e st1 h
    rw [runEq_seq_cons, h, step_err]

/-- C7, witness: `kas x = 1; say x; kas y = 1 / 0; say 2` stops at the
division error with `x` still bound and `y` unbound. -/
theorem c7_theorem_witness :
    run 100 (.seq c7prog.stmts) { initSt with output := [] }
        = some (.error ⟨"Division by zero"⟩, c7st)
      ∧ interpretF 100 c7prog initSt
          = some (c7st.output ++ [errLine ⟨"Division by zero"⟩],
                  { c7st with output := c7st.output ++ [errLine ⟨"Division by zero"⟩] })
      ∧ c7st.output = ["1.0"]
      ∧ c7st.vars "x" = some (.float 1) ∧ c7st.vars "y" = Option.none :=
  ⟨rfl, c7_theorem.1 100 c7prog initSt ⟨"Division by zero"⟩ c7st rfl, rfl, rfl, rfl⟩

/-- C8: `for kas i = 10 to 1 step -1` runs its body exactly ten times with
`i = 10.0, 9.0, …, 1.0` in descending order, and `for kas i = 1 to 5 step 0`
raises the step-cannot-be-zero RuntimeError. -/
theorem c8_theorem :
    runOutput 200 c8down initSt
        = some ["10.0", "9.0", "8.0", "7.0", "6.0", "5.0", "4.0", "3.0", "2.0", "1.0"]
      ∧ runOutput 200 c8zero initSt
          = some ["❌ Runtime error: For loop step cannot be zero"] :=
  ⟨rfl, rfl⟩

/-- C10: when a function body raises (division by zero after `kas x = 7`
with parameter `p = 5`), the pre-call snapshot is not restored: `p` and `x`
remain bound in the state `interpret()` leaves behind, while the
normal-return variant of the same call restores the snapshot and leaves
neither binding. -/
theorem c10_theorem :
    runOutput 100 c10prog initSt = some ["❌ Runtime error: Division by zero"]
      ∧ runVarF 100 c10prog initSt "p" = some (some (.float 5))
      ∧ runVarF 100 c10prog initSt "x" = some (some (.float 7))
      ∧ runVarF 100 c10prog initSt "g" = some (some (.float 0))
      ∧ runVarF 100 c10prog initSt "r" = some Option.none
      ∧ runVarF 100 c10prog2 initSt "p" = some Option.none
      ∧ runVarF 100 c10prog2 initSt "x" = some Option.none
      ∧ runVarF 100 c10prog2 initSt "r" = some (some PyVal.none) :=
  ⟨rfl, rfl, rfl, rfl, rfl, rfl, rfl, rfl⟩

/-- C9, counterexample: for `if true { say "A" }` / `return` (which uses no
`input()`), the first `interpret()` after a `reset()` prints `A` but leaves
the pending-return flag set, so the second `interpret()` of the same program
prints nothing: the two output lists differ. -/
theorem c9_counterexample :
    runTwice 100 c9prog (resetI initSt) = some (["A"], [])
      ∧ (["A"] : List String) ≠ [] :=
  ⟨rfl, by decide⟩

/-! ### The replay simulation behind the amended C9

A second `interpret()` of the same input-free program replays the first one
in lockstep, provided the first run ended with the pending-return flag
clear.  The second run's state differs from the first's only by leftover
bindings (the final maps `E`/`F` of the first run); the simulation invariant
`Core` says the second state is the first overlaid on those leftovers.  The
one way the runs could diverge is a name the first run fails to resolve that
the leftovers do contain — the `Esc` escape — and at top level that is
impossible because the first run's final maps are exactly its maps at the
failure point. -/

/-- Left-biased union of two optional values. -/
def overlay {α : Type} (a b : Option α) : Option α :=
  match a with
  | some v => some v
  | Option.none => b

/-- Map `m2` equals map `m1` overlaid on the leftover map `E`. -/
def Over {α : Type} (E : String → Option α) (m1 m2 : String → Option α) : Prop :=
  ∀ x, m2 x = overlay (m1 x) (E x)

/-- Simulation invariant between a first-run state and a second-run state:
same output, same pending-return flag, and maps equal up to the fixed
leftovers `E` (variables) and `F` (functions). -/
structure Core (E : String → Option PyVal) (F : String → Option FunDef) (s1 s2 : St) : Prop where
  hv : Over E s1.vars s2.vars
  hf : Over F s1.funcs s2.funcs
  ho : s2.output = s1.output
  hr : s2.shouldReturn = s1.shouldReturn

/-- Every function stored in the table has an input-free body. -/
def funcsOK (m : String → Option FunDef) : Prop :=
  ∀ n fd, m n = some fd → fd.body.noInput = true

/-- `return_value` bookkeeping: after a piece of work the two runs hold
equal values, or both are untouched since the given start states.  (The
value is only ever read after `call_function` resets it, where both runs
agree, so an initial discrepancy is harmless.) -/
def RetR (a b c d : St) : Prop :=
  c.retVal = d.retVal ∨ (c.retVal = a.retVal ∧ d.retVal = b.retVal)

/-- The first run failed to resolve a name that the leftover maps contain:
the only point where the second run may part ways with the first. -/
def Esc (E : String → Option PyVal) (F : String → Option FunDef)
    (r : Except RErr PyVal) (s : St) : Prop :=
  (∃ e, r = Except.error e)
    ∧ ((∃ x, s.vars x = Option.none ∧ (E x).isSome = true)
       ∨ (∃ f, s.funcs f = Option.none ∧ (F f).isSome = true))

/-- Relation between the two runs' results: fuel runs out together, or the
first run escapes, or the second run produces the same answer in a
`Core`-related state. -/
def Sim (E : String → Option PyVal) (F : String → Option FunDef)
    (a b : St) (o1 o2 : Res) : Prop :=
  match o1 with
  | Option.none => o2 = Option.none
  | some (r1, s1) =>
    Esc E F r1 s1
      ∨ ∃ s2, o2 = some (r1, s2) ∧ Core E F s1 s2 ∧ funcsOK s1.funcs ∧ RetR a b s1 s2

theorem retR_trans {a b c d e f : St} (h1 : RetR a b c d) (h2 : RetR c d e f) :
    RetR a b e f := by
  rcases h2 with h2 | ⟨h2a, h2b⟩
  · exact Or.inl h2
  · rcases h1 with h1 | ⟨h1a, h1b⟩
    · exact Or.inl (by rw [h2a, h2b, h1])
    · exact Or.inr ⟨by rw [h2a, h1a], by rw [h2b, h1b]⟩

theorem simMono {E : String → Option PyVal} {F : String → Option FunDef}
    {a b c d : St} {o1 o2 : Res}
    (h : Sim E F c d o1 o2) (hr : RetR a b c d) : Sim E F a b o1 o2 := by
  cases o1 with
  | none => exact h
  | some p =>
    obtain ⟨r1, s1⟩ := p
    have h2 : Esc E F r1 s1
        ∨ ∃ s2, o2 = some (r1, s2) ∧ Core E F s1 s2 ∧ funcsOK s1.funcs ∧ RetR c d s1 s2 := h
    rcases h2 with hesc | ⟨s2, ho, hc, hfk, hrr⟩
    · exact Or.inl hesc
    · exact Or.inr ⟨s2, ho, hc, hfk, retR_trans hr hrr⟩

theorem simStep {E : String → Option PyVal} {F : String → Option FunDef}
    {a b : St} {o1 o2 : Res} {k1 k2 : PyVal → St → Res}
    (h : Sim E F a b o1 o2)
    (hk : ∀ v s1 s2, Core E F s1 s2 → funcsOK s1.funcs → RetR a b s1 s2 →
      Sim E F s1 s2 (k1 v s1) (k2 v s2)) :
    Sim E F a b (step o1 k1) (step o2 k2) := by
  cases o1 with
  | none =>
    have h2 : o2 = Option.none := h
    rw [h2]
    rfl
  | some p =>
    obtain ⟨r1, s1⟩ := p
    cases r1 with
    | error e =>
      have h2 : Esc E F (.error e) s1
          ∨ ∃ s2, o2 = some (Except.error e, s2) ∧ Core E F s1 s2 ∧ funcsOK s1.funcs
              ∧ RetR a b s1 s2 := h
      rcases h2 with hesc | ⟨s2, ho, hc, hfk, hrr⟩
      · exact Or.inl hesc
      · rw [ho, step_err]
        exact Or.inr ⟨s2, rfl, hc, hfk, hrr⟩
    | ok v =>
      have h2 : Esc E F (.ok v) s1
          ∨ ∃ s2, o2 = some (Except.ok v, s2) ∧ Core E F s1 s2 ∧ funcsOK s1.funcs
              ∧ RetR a b s1 s2 := h
      rcases h2 with ⟨⟨e, he⟩, _⟩ | ⟨s2, ho, hc, hfk, hrr⟩
      · cases he
      · rw [ho, step_ok, step_ok]
        exact simMono (hk v s1 s2 hc hfk hrr) hrr

theorem simStepG {E : String → Option PyVal} {F : String → Option FunDef}
    {a b c d : St} {o1 o2 : Res} {k1 k2 : PyVal → St → Res}
    (h : Sim E F c d o1 o2) (hcd : RetR a b c d)
    (hk : ∀ v s1 s2, Core E F s1 s2 → funcsOK s1.funcs → RetR c d s1 s2 →
      Sim E F s1 s2 (k1 v s1) (k2 v s2)) :
    Sim E F a b (step o1 k1) (step o2 k2) := by
  cases o1 with
  | none =>
    have h2 : o2 = Option.none := h
    rw [h2]
    rfl
  | some p =>
    obtain ⟨r1, s1⟩ := p
    cases r1 with
    | error e =>
      have h2 : Esc E F (.error e) s1
          ∨ ∃ s2, o2 = some (Except.error e, s2) ∧ Core E F s1 s2 ∧ funcsOK s1.funcs
              ∧ RetR c d s1 s2 := h
      rcases h2 with hesc | ⟨s2, ho, hc, hfk, hrr⟩
      · exact Or.inl hesc
      · rw [ho, step_err]
        exact Or.inr ⟨s2, rfl, hc, hfk, retR_trans hcd hrr⟩
    | ok v =>
      have h2 : Esc E F (.ok v) s1
          ∨ ∃ s2, o2 = some (Except.ok v, s2) ∧ Core E F s1 s2 ∧ funcsOK s1.funcs
              ∧ RetR c d s1 s2 := h
      rcases h2 with ⟨⟨e, he⟩, _⟩ | ⟨s2, ho, hc, hfk, hrr⟩
      · cases he
      · rw [ho, step_ok, step_ok]
        exact simMono (hk v s1 s2 hc hfk hrr) (retR_trans hcd hrr)

theorem coreUpdVars {E : String → Option PyVal} {F : String → Option FunDef} {s1 s2 : St}
    (hC : Core E F s1 s2) (k : String) (v : PyVal) :
    Core E F { s1 with vars := upd s1.vars k v } { s2 with vars := upd s2.vars k v } := by
  refine ⟨?_, hC.hf, hC.ho, hC.hr⟩
  intro x
  by_cases hx : x = k
  · simp [upd, hx, overlay]
  · simp [upd, hx, overlay, hC.hv x]

theorem coreUpdFuncs {E : String → Option PyVal} {F : String → Option FunDef} {s1 s2 : St}
    (hC : Core E F s1 s2) (k : String) (fd : FunDef) :
    Core E F { s1 with funcs := upd s1.funcs k fd } { s2 with funcs := upd s2.funcs k fd } := by
  refine ⟨hC.hv, ?_, hC.ho, hC.hr⟩
  intro x
  by_cases hx : x = k
  · simp [upd, hx, overlay]
  · simp [upd, hx, overlay, hC.hf x]

theorem funcsOKUpd {m : String → Option FunDef} (hm : funcsOK m) (k : String) {fd : FunDef}
    (hfd : fd.body.noInput = true) : funcsOK (upd m k fd) := by
  intro x fd2 hx
  by_cases he : x = k
  · simp [upd, he] at hx
    rw [← hx]
    exact hfd
  · simp [upd, he] at hx
    exact hm x fd2 hx

theorem andSplit {x y : Bool} (h : (x && y) = true) : x = true ∧ y = true := by
  cases x <;> cases y <;> simp_all

/-- The lockstep replay: starting from `Core`-related states, running any
input-free job (over a function table of input-free bodies) either exhausts
fuel in both runs, escapes on a leftover-only name, or produces the same
answer again in `Core`-related states. -/
theorem simRun (E : String → Option PyVal) (F : String → Option FunDef) :
    ∀ (fuel : Nat) (t : Job) (a b : St), t.noInput = true → funcsOK a.funcs →
      Core E F a b → Sim E F a b (run fuel t a) (run fuel t b) := by
  intro fuel
  induction fuel with
  | zero => intro t a b _ _ _; rfl
  | succ n ih =>
    intro t a b hNI hFOK hCore
    cases t with
    | expr e =>
      cases e with
      | num q =>
        simp only [runEq_num]
        exact Or.inr ⟨b, rfl, hCore, hFOK, Or.inr ⟨rfl, rfl⟩⟩
      | strL s =>
        simp only [runEq_strL]
        exact Or.inr ⟨b, rfl, hCore, hFOK, Or.inr ⟨rfl, rfl⟩⟩
      | boolL bv =>
        simp only [runEq_boolL]
        exact Or.inr ⟨b, rfl, hCore, hFOK, Or.inr ⟨rfl, rfl⟩⟩
      | ident x =>
        simp only [runEq_ident]
        have hb := hCore.hv x
        cases hv : a.vars x with
        | some v =>
          rw [hv] at hb
          simp only [overlay] at hb
          rw [hb]
          exact Or.inr ⟨b, rfl, hCore, hFOK, Or.inr ⟨rfl, rfl⟩⟩
        | none =>
          rw [hv] at hb
          simp only [overlay] at hb
          cases hE : E x with
          | some w =>
            exact Or.inl ⟨⟨_, rfl⟩, Or.inl ⟨x, hv, by rw [hE]; rfl⟩⟩
          | none =>
            rw [hE] at hb
            rw [hb]
            exact Or.inr ⟨b, rfl, hCore, hFOK, Or.inr ⟨rfl, rfl⟩⟩
      | binop l op r =>
        have hNI2 : (Expr.noInput l && Expr.noInput r) = true := hNI
        obtain ⟨h1, h2⟩ := andSplit hNI2
        simp only [runEq_binop]
        refine simStep (ih (.expr l) a b h1 hFOK hCore) ?_
        intro v s1 s2 hC hFk _
        refine simStep (ih (.expr r) s1 s2 h2 hFk hC) ?_
        intro w u1 u2 hC2 hFk2 _
        cases applyBinary op v w with
        | ok z => exact Or.inr ⟨u2, rfl, hC2, hFk2, Or.inr ⟨rfl, rfl⟩⟩
        | error er => exact Or.inr ⟨u2, rfl, hC2, hFk2, Or.inr ⟨rfl, rfl⟩⟩
      | unop op e1 =>
        have h1 : Expr.noInput e1 = true := hNI
        simp only [runEq_unop]
        refine simStep (ih (.expr e1) a b h1 hFOK hCore) ?_
        intro v s1 s2 hC hFk _
        cases applyUnary op v with
        | ok z => exact Or.inr ⟨s2, rfl, hC, hFk, Or.inr ⟨rfl, rfl⟩⟩
        | error er => exact Or.inr ⟨s2, rfl, hC, hFk, Or.inr ⟨rfl, rfl⟩⟩
      | paren e1 =>
        simp only [runEq_paren]
        exact ih (.expr e1) a b hNI hFOK hCore
      | inputC p =>
        exact absurd hNI (by simp [Job.noInput, Expr.noInput])
      | call nm args =>
        simp only [runEq_call]
        exact ih (.callT nm args) a b hNI hFOK hCore
    | callT nm args =>
      simp only [runEq_callT]
      have hb := hCore.hf nm
      cases hfn : a.funcs nm with
      | none =>
        rw [hfn] at hb
        simp only [overlay] at hb
        cases hF : F nm with
        | some fd =>
          exact Or.inl ⟨⟨_, rfl⟩, Or.inr ⟨nm, hfn, by rw [hF]; rfl⟩⟩
        | none =>
          rw [hF] at hb
          rw [hb]
          exact Or.inr ⟨b, rfl, hCore, hFOK, Or.inr ⟨rfl, rfl⟩⟩
      | some f =>
        rw [hfn] at hb
        simp only [overlay] at hb
        rw [hb]
        dsimp only
        by_cases hlen : args.length = f.params.length
        · rw [if_pos hlen, if_pos hlen]
          refine simStep (ih (.bindA f.params args) a b hNI hFOK hCore) ?_
          intro v s1 s2 hC hFk _
          have hbody := hFOK nm f hfn
          refine simStepG
            (ih (.stmt f.body)
              { s1 with shouldReturn := false, retVal := .none }
              { s2 with shouldReturn := false, retVal := .none }
              hbody hFk ⟨hC.hv, hC.hf, hC.ho, rfl⟩)
            (Or.inl rfl) ?_
          intro w w1 w2 hC3 hFk3 hR3
          have hret : w1.retVal = w2.retVal := by
            rcases hR3 with h | ⟨h1, h2⟩
            · exact h
            · rw [h1, h2]
          refine Or.inr ⟨{ w2 with vars := b.vars, shouldReturn := false }, by rw [hret],
            ⟨fun x => hCore.hv x, hC3.hf, hC3.ho, rfl⟩, hFk3, Or.inl hret⟩
        · rw [if_neg hlen, if_neg hlen]
          exact Or.inr ⟨b, rfl, hCore, hFOK, Or.inr ⟨rfl, rfl⟩⟩
    | bindA ps args =>
      cases ps with
      | nil =>
        cases args with
        | nil =>
          simp only [runEq_bindA_nil]
          exact Or.inr ⟨b, rfl, hCore, hFOK, Or.inr ⟨rfl, rfl⟩⟩
        | cons a2 as2 =>
          exact Or.inr ⟨b, rfl, hCore, hFOK, Or.inr ⟨rfl, rfl⟩⟩
      | cons p ps2 =>
        cases args with
        | nil =>
          exact Or.inr ⟨b, rfl, hCore, hFOK, Or.inr ⟨rfl, rfl⟩⟩
        | cons a2 as2 =>
          have hNI2 : (Expr.noInput a2 && exprsNoInput as2) = true := hNI
          obtain ⟨h1, h2⟩ := andSplit hNI2
          simp only [runEq_bindA_cons]
          refine simStep (ih (.expr a2) a b h1 hFOK hCore) ?_
          intro v s1 s2 hC hFk _
          exact simMono (ih (.bindA ps2 as2) _ _ h2 hFk (coreUpdVars hC p v))
            (Or.inr ⟨rfl, rfl⟩)
    | stmt s =>
      cases s with
      | say e =>
        have h1 : Expr.noInput e = true := hNI
        simp only [runEq_say]
        refine simStep (ih (.expr e) a b h1 hFOK hCore) ?_
        intro v s1 s2 hC hFk _
        exact Or.inr ⟨{ s2 with output := s2.output ++ [pyStr v] }, rfl,
          ⟨hC.hv, hC.hf, by rw [hC.ho], hC.hr⟩, hFk, Or.inr ⟨rfl, rfl⟩⟩
      | assign nm e =>
        have h1 : Expr.noInput e = true := hNI
        simp only [runEq_assign]
        refine simStep (ih (.expr e) a b h1 hFOK hCore) ?_
        intro v s1 s2 hC hFk _
        exact Or.inr ⟨{ s2 with vars := upd s2.vars nm v }, rfl,
          coreUpdVars hC nm v, hFk, Or.inr ⟨rfl, rfl⟩⟩
      | ifS c tb eb =>
        have hNI2 : (Expr.noInput c && (Stmt.noInput tb && optNoInput eb)) = true := by
          have h0 : (Expr.noInput c && Stmt.noInput tb && optNoInput eb) = true := hNI
          simp only [Bool.and_assoc] at h0
          exact h0
        obtain ⟨h1, h23⟩ := andSplit hNI2
        obtain ⟨h2, h3⟩ := andSplit h23
        simp only [runEq_if]
        refine simStep (ih (.expr c) a b h1 hFOK hCore) ?_
        intro cv s1 s2 hC hFk _
        cases ht : isTruthy cv with
        | true => exact ih (.stmt tb) s1 s2 h2 hFk hC
        | false =>
          cases eb with
          | some s3 => exact ih (.stmt s3) s1 s2 h3 hFk hC
          | none => exact Or.inr ⟨s2, rfl, hC, hFk, Or.inr ⟨rfl, rfl⟩⟩
      | block ss =>
        simp only [runEq_stmt_block]
        exact ih (.block ss) a b hNI hFOK hCore
      | whileS c bd =>
        have hNI2 : (Expr.noInput c && Stmt.noInput bd) = true := hNI
        obtain ⟨h1, h2⟩ := andSplit hNI2
        simp only [runEq_while]
        refine simStep (ih (.expr c) a b h1 hFOK hCore) ?_
        intro cv s1 s2 hC hFk _
        cases ht : isTruthy cv with
        | true =>
          refine simStep (ih (.stmt bd) s1 s2 h2 hFk hC) ?_
          intro w u1 u2 hC2 hFk2 _
          exact ih (.stmt (.whileS c bd)) u1 u2 hNI hFk2 hC2
        | false => exact Or.inr ⟨s2, rfl, hC, hFk, Or.inr ⟨rfl, rfl⟩⟩
      | forS v se ee pe bd =>
        obtain ⟨h123, h4⟩ := andSplit hNI
        obtain ⟨h12, h3⟩ := andSplit h123
        obtain ⟨h1, h2⟩ := andSplit h12
        simp only [runEq_for]
        refine simStep (ih (.expr se) a b h1 hFOK hCore) ?_
        intro sv s1 s2 hC hFk _
        refine simStep (ih (.expr ee) s1 s2 h2 hFk hC) ?_
        intro ev u1 u2 hC2 hFk2 _
        have hk3 : ∀ (pv : PyVal) (w1 w2 : St), Core E F w1 w2 → funcsOK w1.funcs →
            RetR u1 u2 w1 w2 →
            Sim E F w1 w2
              ((fun pv stC =>
                if isNum (toNumeric sv) && isNum (toNumeric ev) && isNum (toNumeric pv) then
                  if (⟨0, 1⟩ : PyQ).ltQ (numQ (toNumeric pv)) then
                    run n (.forLoop false v (toNumeric sv) (toNumeric ev) (toNumeric pv) bd)
                      { stC with vars := upd stC.vars v (toNumeric sv) }
                  else if (numQ (toNumeric pv)).ltQ ⟨0, 1⟩ then
                    run n (.forLoop true v (toNumeric sv) (toNumeric ev) (toNumeric pv) bd)
                      { stC with vars := upd stC.vars v (toNumeric sv) }
                  else some (.error ⟨"For loop step cannot be zero"⟩,
                    { stC with vars := upd stC.vars v (toNumeric sv) })
                else some (.error ⟨"For loop requires numeric values for start, end, and step"⟩,
                  stC)) pv w1)
              ((fun pv stC =>
                if isNum (toNumeric sv) && isNum (toNumeric ev) && isNum (toNumeric pv) then
                  if (⟨0, 1⟩ : PyQ).ltQ (numQ (toNumeric pv)) then
                    run n (.forLoop false v (toNumeric sv) (toNumeric ev) (toNumeric pv) bd)
                      { stC with vars := upd stC.vars v (toNumeric sv) }
                  else if (numQ (toNumeric pv)).ltQ ⟨0, 1⟩ then
                    run n (.forLoop true v (toNumeric sv) (toNumeric ev) (toNumeric pv) bd)
                      { stC with vars := upd stC.vars v (toNumeric sv) }
                  else some (.error ⟨"For loop step cannot be zero"⟩,
                    { stC with vars := upd stC.vars v (toNumeric sv) })
                else some (.error ⟨"For loop requires numeric values for start, end, and step"⟩,
                  stC)) pv w2) := by
          intro pv w1 w2 hC3 hFk3 _
          dsimp only
          cases hc1 : (isNum (toNumeric sv) && isNum (toNumeric ev) && isNum (toNumeric pv)) with
          | false => exact Or.inr ⟨w2, rfl, hC3, hFk3, Or.inr ⟨rfl, rfl⟩⟩
          | true =>
            cases hc2 : (⟨0, 1⟩ : PyQ).ltQ (numQ (toNumeric pv)) with
            | true =>
              exact simMono
                (ih (.forLoop false v (toNumeric sv) (toNumeric ev) (toNumeric pv) bd) _ _
                  h4 hFk3 (coreUpdVars hC3 v (toNumeric sv)))
                (Or.inr ⟨rfl, rfl⟩)
            | false =>
              cases hc3 : (numQ (toNumeric pv)).ltQ ⟨0, 1⟩ with
              | true =>
                exact simMono
                  (ih (.forLoop true v (toNumeric sv) (toNumeric ev) (toNumeric pv) bd) _ _
                    h4 hFk3 (coreUpdVars hC3 v (toNumeric sv)))
                  (Or.inr ⟨rfl, rfl⟩)
              | false =>
                exact Or.inr ⟨{ w2 with vars := upd w2.vars v (toNumeric sv) }, rfl,
                  coreUpdVars hC3 v (toNumeric sv), hFk3, Or.inr ⟨rfl, rfl⟩⟩
        cases pe with
        | some p =>
          refine simStep (ih (.expr p) u1 u2 h3 hFk2 hC2) ?_
          exact hk3
        | none =>
          refine simStep (Or.inr ⟨u2, rfl, hC2, hFk2, Or.inr ⟨rfl, rfl⟩⟩) ?_
          exact hk3
      | funcDef nm ps bd =>
        have hbd : Stmt.noInput bd = true := hNI
        simp only [runEq_funcDef]
        exact Or.inr ⟨{ b with funcs := upd b.funcs nm ⟨ps, bd⟩ }, rfl,
          coreUpdFuncs hCore nm ⟨ps, bd⟩, funcsOKUpd hFOK nm hbd, Or.inr ⟨rfl, rfl⟩⟩
      | ret oe =>
        cases oe with
        | some e =>
          have h1 : Expr.noInput e = true := hNI
          simp only [runEq_ret_some]
          refine simStep (ih (.expr e) a b h1 hFOK hCore) ?_
          intro v s1 s2 hC hFk _
          exact Or.inr ⟨{ s2 with retVal := v, shouldReturn := true }, rfl,
            ⟨hC.hv, hC.hf, hC.ho, rfl⟩, hFk, Or.inl rfl⟩
        | none =>
          simp only [runEq_ret_none]
          exact Or.inr ⟨{ b with retVal := .none, shouldReturn := true }, rfl,
            ⟨hCore.hv, hCore.hf, hCore.ho, rfl⟩, hFOK, Or.inl rfl⟩
    | block ss =>
      cases ss with
      | nil =>
        simp only [runEq_block_nil]
        exact Or.inr ⟨b, rfl, hCore, hFOK, Or.inr ⟨rfl, rfl⟩⟩
      | cons s rest =>
        have hNI2 : (Stmt.noInput s && stmtsNoInput rest) = true := hNI
        obtain ⟨h1, h2⟩ := andSplit hNI2
        simp only [runEq_block_cons, hCore.hr]
        cases hfl : a.shouldReturn with
        | true =>
          simp only [if_true]
          exact Or.inr ⟨b, rfl, hCore, hFOK, Or.inr ⟨rfl, rfl⟩⟩
        | false =>
          simp only [Bool.false_eq_true, if_false]
          refine simStep (ih (.stmt s) a b h1 hFOK hCore) ?_
          intro v s1 s2 hC hFk _
          exact ih (.block rest) s1 s2 h2 hFk hC
    | seq ss =>
      cases ss with
      | nil =>
        simp only [runEq_seq_nil]
        exact Or.inr ⟨b, rfl, hCore, hFOK, Or.inr ⟨rfl, rfl⟩⟩
      | cons s rest =>
        have hNI2 : (Stmt.noInput s && stmtsNoInput rest) = true := hNI
        obtain ⟨h1, h2⟩ := andSplit hNI2
        simp only [runEq_seq_cons]
        refine simStep (ih (.stmt s) a b h1 hFOK hCore) ?_
        intro v s1 s2 hC hFk _
        exact ih (.seq rest) s1 s2 h2 hFk hC
    | forLoop down v cur stop stp bd =>
      simp only [runEq_forLoop]
      cases hcond : (if down then (numQ stop).leQ (numQ cur) else (numQ cur).leQ (numQ stop)) with
      | false =>
        simp only [Bool.false_eq_true, if_false]
        exact Or.inr ⟨b, rfl, hCore, hFOK, Or.inr ⟨rfl, rfl⟩⟩
      | true =>
        simp only [if_true]
        refine simStep (ih (.stmt bd) a b hNI hFOK hCore) ?_
        intro w s1 s2 hC hFk _
        exact simMono
          (ih (.forLoop down v (numAdd cur stp) stop stp bd) _ _ hNI hFk
            (coreUpdVars hC v (numAdd cur stp)))
          (Or.inr ⟨rfl, rfl⟩)

theorem interpretEq_none {fuel : Nat} {p : Program} {st : St}
    (h : run fuel (.seq p.stmts) { st with output := [] } = Option.none) :
    interpretF fuel p st = Option.none := by
  simp only [interpretF, h]

theorem interpretEq_ok {fuel : Nat} {p : Program} {st : St} {r : PyVal} {st1 : St}
    (h : run fuel (.seq p.stmts) { st with output := [] } = some (.ok r, st1)) :
    interpretF fuel p st = some (st1.output, st1) := by
  simp only [interpretF, h]

theorem interpretEq_err {fuel : Nat} {p : Program} {st : St} {e : RErr} {st1 : St}
    (h : run fuel (.seq p.stmts) { st with output := [] } = some (.error e, st1)) :
    interpretF fuel p st
      = some (st1.output ++ [errLine e], { st1 with output := st1.output ++ [errLine e] }) := by
  simp only [interpretF, h]

/-- C9, amended: for every input-free program, if an `interpret()` call on a
freshly `reset()` interpreter completes (with any fuel) *and leaves the
pending-return flag clear* — a top-level `return` is what can leave it set —
then a second `interpret()` of the same program completes with exactly the
same output list.  The second run replays the first in lockstep: the
leftover variable/function bindings are exactly the first run's final maps,
so every lookup resolves identically (a name the first run failed on cannot
be in the leftovers, because the first run stopped right there). -/
theorem c9_theorem (fuel : Nat) (p : Program) (s0 : St) (o1 : List String) (st1 : St)
    (hNI : p.noInput = true)
    (h1 : interpretF fuel p (resetI s0) = some (o1, st1))
    (hFlag : st1.shouldReturn = false) :
    ∃ st2, interpretF fuel p st1 = some (o1, st2) := by
  cases hrun : run fuel (.seq p.stmts) { resetI s0 with output := [] } with
  | none =>
    rw [interpretEq_none hrun] at h1
    cases h1
  | some pr =>
    obtain ⟨r, s3⟩ := pr
    cases r with
    | ok u =>
      rw [interpretEq_ok hrun] at h1
      rw [Option.some.injEq, Prod.mk.injEq] at h1
      obtain ⟨ho1, hst1⟩ := h1
      subst hst1
      subst ho1
      have hSim := simRun s3.vars s3.funcs fuel (.seq p.stmts)
        { resetI s0 with output := [] } { s3 with output := [] }
        hNI (fun n fd h => by simp [resetI] at h)
        ⟨fun x => rfl, fun n => rfl, rfl, hFlag⟩
      rw [hrun] at hSim
      have hSim2 : Esc s3.vars s3.funcs (.ok u) s3
          ∨ ∃ s2, run fuel (.seq p.stmts) { s3 with output := [] } = some (.ok u, s2)
              ∧ Core s3.vars s3.funcs s3 s2 ∧ funcsOK s3.funcs
              ∧ RetR { resetI s0 with output := [] } { s3 with output := [] } s3 s2 := hSim
      rcases hSim2 with ⟨⟨e, he⟩, _⟩ | ⟨s2, hrun2, hc2, _, _⟩
      · cases he
      · exact ⟨s2, by rw [interpretEq_ok hrun2, hc2.ho]⟩
    | error e =>
      rw [interpretEq_err hrun] at h1
      rw [Option.some.injEq, Prod.mk.injEq] at h1
      obtain ⟨ho1, hst1⟩ := h1
      subst hst1
      subst ho1
      have hSim := simRun ({ s3 with output := s3.output ++ [errLine e] } : St).vars
        ({ s3 with output := s3.output ++ [errLine e] } : St).funcs fuel (.seq p.stmts)
        { resetI s0 with output := [] }
        { { s3 with output := s3.output ++ [errLine e] } with output := [] }
        hNI (fun n fd h => by simp [resetI] at h)
        ⟨fun x => rfl, fun n => rfl, rfl, hFlag⟩
      rw [hrun] at hSim
      have hSim2 : Esc s3.vars s3.funcs (.error e) s3
          ∨ ∃ s2, run fuel (.seq p.stmts)
                { { s3 with output := s3.output ++ [errLine e] } with output := [] }
                = some (.error e, s2)
              ∧ Core s3.vars s3.funcs s3 s2 ∧ funcsOK s3.funcs
              ∧ RetR { resetI s0 with output := [] }
                  { { s3 with output := s3.output ++ [errLine e] } with output := [] }
                  s3 s2 := hSim
      rcases hSim2 with ⟨_, hor⟩ | ⟨s2, hrun2, hc2, _, _⟩
      · rcases hor with ⟨x, hx1, hx2⟩ | ⟨g, hg1, hg2⟩
        · rw [hx1] at hx2
          simp at hx2
        · rw [hg1] at hg2
          simp at hg2
      · exact ⟨_, by rw [interpretEq_err hrun2, hc2.ho]⟩

/-- The one-statement program `say "hi"` used to witness the replay theorem. -/
def c9wProg : Program := ⟨[.say (.strL "hi")]⟩

/-- The state the first `interpret()` of `c9wProg` leaves behind. -/
def c9wSt : St :=
  match interpretF 10 c9wProg (resetI initSt) with
  | some (_, s) => s
  | Option.none => initSt

/-- C9, witness: `say "hi"` printed `hi` on the first run, ends with the
flag clear, and the replay theorem yields the same output again. -/
theorem c9_theorem_witness :
    c9wProg.noInput = true
      ∧ interpretF 10 c9wProg (resetI initSt) = some (["hi"], c9wSt)
      ∧ c9wSt.shouldReturn = false
      ∧ ∃ st2, interpretF 10 c9wProg c9wSt = some (["hi"], st2) :=
  ⟨rfl, rfl, rfl, c9_theorem 10 c9wProg initSt ["hi"] c9wSt rfl rfl rfl⟩

end Doro
